import Mathlib

/-!
Verification of the Spread & Palette Engine of the VAS chart scripts
(`scripts/create_charts.py`).

Modelling conventions:
* an IEEE float is modelled as `Option ℝ`, with `none` standing for NaN
  (the value `pandas.to_numeric(..., errors='coerce')` produces for an
  unparseable cell, and the value numpy statistics return when NaN is
  present in the input);
* a pandas dataframe row is a `Row` record whose offset columns are
  `Option ℚ` (CSV cells are decimal literals, hence rational); offsets are
  cast to `ℝ` when they reach the statistics;
* Python strings are Lean `String`s;
* the unseeded `np.random.shuffle` call in the more-than-12-keys colour
  branch is modelled by an explicit shuffle parameter: any function the
  caller supplies stands for one concrete random draw.
-/

namespace VAS

/-! ### Float model -/

/-- Float addition: NaN (`none`) is absorbing, as for IEEE floats. -/
noncomputable def fadd : Option ℝ → Option ℝ → Option ℝ
  | some a, some b => some (a + b)
  | _, _ => none

/-- Sequence a list of floats: `some` of the underlying reals when no entry
is NaN, `none` as soon as one entry is NaN.  This is how a single NaN input
poisons every numpy aggregate (`np.std`, `np.mean`, `np.percentile`). -/
def seqOption (l : List (Option ℝ)) : Option (List ℝ) :=
  if l.all (fun o => o.isSome) then some l.reduceOption else none

/-- Radius transform, mirroring
`r = np.sqrt(np.array(x)**2 + np.array(y)**2)` in `measure_spread`:
elementwise `sqrt (x_i^2 + y_i^2)`, NaN in either coordinate giving NaN. -/
noncomputable def radii (x y : List (Option ℝ)) : List (Option ℝ) :=
  List.zipWith (fun a b =>
    match a, b with
    | some a, some b => some (Real.sqrt (a ^ 2 + b ^ 2))
    | _, _ => none) x y

/-- Population standard deviation, mirroring `np.std(r)` (ddof = 0):
`sqrt (mean ((r_i - mean r)^2))`; NaN when the input holds a NaN or is
empty. -/
noncomputable def npStd (r : List (Option ℝ)) : Option ℝ :=
  (seqOption r).bind fun s =>
    if s.isEmpty then none
    else some (Real.sqrt (((s.map fun v => (v - s.sum / s.length) ^ 2).sum) / s.length))

/-- Root mean square, mirroring `np.sqrt(np.mean(r**2))`. -/
noncomputable def npRms (r : List (Option ℝ)) : Option ℝ :=
  (seqOption r).bind fun s =>
    if s.isEmpty then none
    else some (Real.sqrt ((s.map fun v => v ^ 2).sum / s.length))

/-- Linear-interpolation percentile on an ascending-sorted list, mirroring
`np.percentile` with its default interpolation: virtual position
`q/100 * (n-1)`, result interpolated between the two bracketing order
statistics. -/
noncomputable def percLin (s : List ℝ) (q : ℚ) : ℝ :=
  let n := s.length
  let pos : ℚ := q * ((n : ℚ) - 1) / 100
  let i : ℕ := (⌊pos⌋).toNat
  let j : ℕ := min (i + 1) (n - 1)
  s.getD i 0 + ((pos - (⌊pos⌋ : ℚ)) : ℝ) * (s.getD j 0 - s.getD i 0)

/-- Percentile of a float list, mirroring `np.percentile(r, percentile)`:
sort ascending, then interpolate; NaN when the input holds a NaN. -/
noncomputable def npPercentile (r : List (Option ℝ)) (q : ℚ) : Option ℝ :=
  (seqOption r).bind fun s =>
    if s.isEmpty then none
    else some (percLin (List.insertionSort (· ≤ ·) s) q)

/-- Shallow embedding of `measure_spread(x, y, method, percentile)`
(`create_charts.py`): empty `x` gives NaN, otherwise the radius list is
formed and the selected statistic applied; an unrecognised method name
gives NaN. -/
noncomputable def measure_spread (x y : List (Option ℝ)) (method : String)
    (percentile : ℚ) : Option ℝ :=
  if x.length = 0 then none
  else if method = "std_radius" then npStd (radii x y)
  else if method = "rms_radius" then npRms (radii x y)
  else if method = "percentile_radius" then npPercentile (radii x y) percentile
  else none

/-- Radius list on clean (NaN-free) input. -/
noncomputable def cleanRadii (x y : List ℝ) : List ℝ :=
  List.zipWith (fun a b => Real.sqrt (a ^ 2 + b ^ 2)) x y

structure Row where
  xoff : Option ℚ
  yoff : Option ℚ
  spot : String
  run : String
  pallette : String
  rowNum : String
  cassette : String
deriving DecidableEq

/-- Sentinel removal, mirroring
`mask = (df['XOffset'] != 999.0) & (df['YOffset'] != 999.0); df = df[mask]`
in all three report cases.  NaN compares unequal to 999.0 in pandas, so a
NaN offset passes this mask. -/
def stripSentinel (rows : List Row) : List Row :=
  rows.filter fun r => !(r.xoff == some 999) && !(r.yoff == some 999)

/-- Inclusion filter, mirroring `if f: df = df[df[col].isin(f)]`; `none`
stands for an absent or empty filter set in `parameters.yaml` (both are
falsy, hence skip the filter). -/
def applyIncl (get : Row → String) (f : Option (List String))
    (rows : List Row) : List Row :=
  match f with
  | none => rows
  | some l => rows.filter fun r => l.contains (get r)

/-- Working dataset of `create_chart_case_01`: sentinel strip, then spot
filter, then run filter. -/
def working01 (rows : List Row) (spotF runF : Option (List String)) : List Row :=
  applyIncl Row.run runF (applyIncl Row.spot spotF (stripSentinel rows))

/-- Working dataset of `create_chart_case_02`: sentinel strip, then spot,
run and pallette filters. -/
def working02 (rows : List Row) (spotF runF palF : Option (List String)) :
    List Row :=
  applyIncl Row.pallette palF
    (applyIncl Row.run runF (applyIncl Row.spot spotF (stripSentinel rows)))

/-- Working dataset of `create_chart_case_03`: sentinel strip, then spot,
run, row and cassette filters. -/
def working03 (rows : List Row) (spotF runF rowF casF : Option (List String)) :
    List Row :=
  applyIncl Row.cassette casF (applyIncl Row.rowNum rowF
    (applyIncl Row.run runF (applyIncl Row.spot spotF (stripSentinel rows))))

/-- Sub-group of case 01, mirroring
`subdf = df[(df['run_id'] == run) & (df['SpotNumber'] == spot)]`. -/
def subgroup01 (ws : List Row) (run spot : String) : List Row :=
  ws.filter fun r => r.run == run && r.spot == spot

/-- Sub-group of cases 02/03, mirroring
`subdf = df[(df['run_id'] == run) & (df['pallette_number'] == pallette)]`. -/
def subgroup02 (ws : List Row) (run pallette : String) : List Row :=
  ws.filter fun r => r.run == run && r.pallette == pallette

/-- The markers matplotlib actually draws for `ax.scatter(subdf['XOffset'],
subdf['YOffset'], ...)`: a point with a NaN coordinate produces no marker,
so only rows with both offsets parsed appear. -/
def plottedPoints (sub : List Row) : List (ℚ × ℚ) :=
  sub.filterMap fun r =>
    match r.xoff, r.yoff with
    | some a, some b => some (a, b)
    | _, _ => none

/-- The x offsets of a sub-group as the float sequence `subdf['XOffset']`
handed to `measure_spread`, rationals cast to reals, NaN kept. -/
noncomputable def xsOf (sub : List Row) : List (Option ℝ) :=
  sub.map fun r => r.xoff.map fun q => (q : ℝ)

/-- The y offsets of a sub-group, as `subdf['YOffset']`. -/
noncomputable def ysOf (sub : List Row) : List (Option ℝ) :=
  sub.map fun r => r.yoff.map fun q => (q : ℝ)

/-- The spread metric of a sub-group exactly as the renderer computes it:
`measure_spread(subdf['XOffset'], subdf['YOffset'], method, percentile)`. -/
noncomputable def spreadOf (sub : List Row) (method : String) (p : ℚ) : Option ℝ :=
  measure_spread (xsOf sub) (ysOf sub) method p

/-- What the spec's words "excluded from statistics" would require: drop the
rows whose offsets failed to parse before computing anything.  The code has
no such step; this definition exists to compare against `spreadOf`. -/
def dropUnparseable (sub : List Row) : List Row :=
  sub.filter fun r => r.xoff.isSome && r.yoff.isSome

inductive PColor where
  | hex : String → PColor
  | hsv : ℚ → PColor
deriving DecidableEq

/-- The hand-picked 12-colour palette of `create_chart_case_01` and
`create_chart_case_02`: yellow, red, cyan, blue, lime, magenta, orange,
green, pink, purple, brown, tomato. -/
def palette01 : List String :=
  ["#FFD700", "#FF0000", "#00FFFF", "#0000FF", "#00FF00", "#FF00FF",
   "#FFA500", "#008000", "#FFC0CB", "#800080", "#A52A2A", "#FF6347"]

/-- The palette of `create_chart_case_03`: the same 12 colours but with
blue first and yellow fourth. -/
def palette03 : List String :=
  ["#0000FF", "#FF0000", "#00FFFF", "#FFD700", "#00FF00", "#FF00FF",
   "#FFA500", "#008000", "#FFC0CB", "#800080", "#A52A2A", "#FF6347"]

/-- `np.linspace(0, 1, n, endpoint=False)`: the n hues i/n. -/
def linspaceHues (n : ℕ) : List ℚ := (List.range n).map fun i => (i : ℚ) / n

/-- Colour table construction, mirroring the `n_spots <= len(...)` branch
(`zip(unique_spots, high_contrast_colors[:n_spots])`) and the else branch
(`np.random.shuffle` on the linspace hues, then zip); the unseeded shuffle
is an explicit parameter standing for one random draw. -/
def buildColorTable (palette : List String) (keys : List String)
    (shuffle : List ℚ → List ℚ) : List (String × PColor) :=
  if keys.length ≤ palette.length then
    keys.zip ((palette.take keys.length).map PColor.hex)
  else
    keys.zip ((shuffle (linspaceHues keys.length)).map PColor.hsv)

/-- Colour lookup, mirroring `spot_colors.get(spot, '#000000')`: black as
the default for an unmapped key. -/
def lookupColor (table : List (String × PColor)) (k : String) : PColor :=
  match table.find? (fun p => p.1 == k) with
  | some p => p.2
  | none => PColor.hex "#000000"

def digitsVal : List Char → Option ℕ
  | [] => none
  | cs =>
    if cs.all (fun c => c.isDigit) then
      some (cs.foldl (fun a c => 10 * a + (c.toNat - 48)) 0)
    else none

/-- Leading and trailing whitespace removal, as Python `int` applies to its
string argument. -/
def pyTrim (cs : List Char) : List Char :=
  ((cs.dropWhile fun c => c.isWhitespace).reverse.dropWhile
    fun c => c.isWhitespace).reverse

/-- Python `int(s)`: optional sign then decimal digits, surrounding
whitespace ignored; `none` models the `ValueError`. -/
def parseInt (s : String) : Option ℤ :=
  match pyTrim s.data with
  | '+' :: rest => (digitsVal rest).map fun n => (n : ℤ)
  | '-' :: rest => (digitsVal rest).map fun n => -(n : ℤ)
  | cs => (digitsVal cs).map fun n => (n : ℤ)

/-- The tuple `safe_int_sort_key` returns: `(0, int(x))` when the string
parses as an integer, `(1, str(x))` otherwise. -/
inductive SKey where
  | num : ℤ → SKey
  | str : List Char → SKey

/-- `safe_int_sort_key(x)` as a sort key. -/
def keyOf (s : String) : SKey :=
  match parseInt s with
  | some n => SKey.num n
  | none => SKey.str s.data

/-- Lexicographic comparison of Python strings (code-point order). -/
def lexLe : List Char → List Char → Bool
  | [], _ => true
  | _ :: _, [] => false
  | a :: as, b :: bs =>
    if a.toNat < b.toNat then true
    else if b.toNat < a.toNat then false
    else lexLe as bs

/-- Python tuple comparison on the sort keys: every `(0, _)` key precedes
every `(1, _)` key, numeric keys compare by value, string keys
lexicographically. -/
def keyLe : SKey → SKey → Bool
  | SKey.num a, SKey.num b => decide (a ≤ b)
  | SKey.num _, SKey.str _ => true
  | SKey.str _, SKey.num _ => false
  | SKey.str a, SKey.str b => lexLe a b

/-- The ordering `sorted(..., key=safe_int_sort_key)` sorts by. -/
def runLe (a b : String) : Prop := keyLe (keyOf a) (keyOf b) = true

instance : DecidableRel runLe := fun a b => by unfold runLe; infer_instance

/-- `runs = sorted(df['run_id'].unique(), key=safe_int_sort_key)` (Python
sorted is stable; insertion sort is too). -/
def sortRuns (l : List String) : List String := List.insertionSort runLe l

/-- The value ordering `sorted(..., key=lambda x: int(x))` uses on keys
that all parse (the `getD` default is never reached in that case). -/
def spotLe (a b : String) : Prop := ((parseInt a).getD 0) ≤ ((parseInt b).getD 0)

instance : DecidableRel spotLe := fun a b => by unfold spotLe; infer_instance

/-- `sorted(keys, key=lambda x: int(x))`, the sort applied to spot, row and
pallette numbers: raises ValueError (modelled `none`) as soon as one key
fails to parse, else sorts by integer value. -/
def sortSpots (l : List String) : Option (List String) :=
  if l.all (fun s => (parseInt s).isSome) then
    some (List.insertionSort spotLe l)
  else none

instance : IsTotal String runLe := by
  constructor
  have hlex : ∀ a b : List Char, lexLe a b = true ∨ lexLe b a = true := by
    intro a
    induction a with
    | nil => intro b; left; rfl
    | cons x xs ih =>
      intro b
      cases b with
      | nil => right; rfl
      | cons y ys =>
        rcases Nat.lt_trichotomy x.toNat y.toNat with h | h | h
        · left; simp [lexLe, h]
        · have := ih ys
          simp [lexLe, h, Nat.lt_irrefl]
          exact this
        · right; simp [lexLe, h]
  intro a b
  unfold runLe keyLe
  cases keyOf a with
  | num n =>
    cases keyOf b with
    | num m => rcases Int.le_total n m with h | h <;> simp [h]
    | str s => left; rfl
  | str s =>
    cases keyOf b with
    | num m => right; rfl
    | str t => exact hlex s t

instance : IsTrans String runLe := by
  constructor
  have hlex : ∀ a b c : List Char, lexLe a b = true → lexLe b c = true →
      lexLe a c = true := by
    intro a
    induction a with
    | nil => intro b c h1 h2; rfl
    | cons x xs ih =>
      intro b c h1 h2
      cases b with
      | nil => simp [lexLe] at h1
      | cons y ys =>
        cases c with
        | nil => simp [lexLe] at h2
        | cons z zs =>
          simp only [lexLe] at h1 h2 ⊢
          split_ifs at h1 h2 ⊢ <;>
            first
            | rfl
            | omega
            | (exact ih ys zs h1 h2)
  intro a b c h1 h2
  unfold runLe keyLe at h1 h2 ⊢
  cases ka : keyOf a with
  | num n =>
    cases kb : keyOf b with
    | num m =>
      cases kc : keyOf c with
      | num p =>
        rw [ka, kb] at h1
        rw [kb, kc] at h2
        simp only [decide_eq_true_eq] at h1 h2
        simp [le_trans h1 h2]
      | str t => rfl
    | str t =>
      cases kc : keyOf c with
      | num p => rw [kb, kc] at h2; simp at h2
      | str u => rfl
  | str s =>
    cases kb : keyOf b with
    | num m => rw [ka, kb] at h1; simp at h1
    | str t =>
      cases kc : keyOf c with
      | num p => rw [kb, kc] at h2; simp at h2
      | str u =>
        rw [ka, kb] at h1
        rw [kb, kc] at h2
        exact hlex s t u h1 h2

instance : IsTotal String spotLe := ⟨fun _ _ => Int.le_total _ _⟩

instance : IsTrans String spotLe := ⟨fun _ _ _ => le_trans⟩

/-- C6 counterexample: the numeric-first/lexicographic-fallback comparison
is applied only to run identifiers; category keys (spot, row and pallette
numbers) are sorted with `key=lambda x: int(x)`, which raises ValueError
(modelled `none`) on the non-numeric key "A1" instead of placing it after
the numeric keys as the claim requires. -/
noncomputable def fmul : Option ℝ → Option ℝ → Option ℝ
  | some a, some b => some (a * b)
  | _, _ => none

/-- Float sum of a list, for `sum(run_spread_values)`: Python sums left to
right starting from 0; one NaN poisons the total. -/
noncomputable def osum (vals : List (Option ℝ)) : Option ℝ :=
  vals.foldl fadd (some 0)

/-- An overlay circle as handed to `plt.Circle`: centre, radius (NaN
possible), and whether the linestyle is solid (`'-'`) rather than dotted
(`':'`). -/
structure Circle where
  center : ℚ × ℚ
  radius : Option ℝ
  solid : Bool

/-- The text the renderer formats under a chart title: the spread value
(`f"Std Radius: {spread_value:.4f} (2σ circle)"`, abstracted to the value
it formats) or the `"No data"` label of the else branch. -/
inductive MetricText where
  | noData : MetricText
  | stdRadius : Option ℝ → MetricText

/-- Everything the sequential renderer emits for one sub-group: the
scattered points, the computed spread value, the two overlay circles (when
drawn) and the title text. -/
structure SubChart where
  key : String
  points : List (ℚ × ℚ)
  spread : Option ℝ
  density : Option Circle
  tolerance : Option Circle
  text : MetricText

/-- One sequential-mode chart, mirroring the loop body shared by the three
report cases: scatter of the sub-group, spread value from `measure_spread`,
solid density circle at `(0,0)` with radius `2 * spread_value`, dotted
tolerance circle at `(0,0)` with radius `0.2`, and the title text; the
circles and the value text are produced in the `if not subdf.empty` branch
only. -/
noncomputable def mkChart (key : String) (sub : List Row) (method : String)
    (p : ℚ) : SubChart :=
  let spread := spreadOf sub method p
  { key := key
    points := plottedPoints sub
    spread := spread
    density := if sub.isEmpty then none
      else some ⟨(0, 0), fmul (some 2) spread, true⟩
    tolerance := if sub.isEmpty then none
      else some ⟨(0, 0), some 0.2, false⟩
    text := if sub.isEmpty then MetricText.noData
      else MetricText.stdRadius spread }

/-- The chart list the sequential renderer of case 01 emits for one run:
for each spot an empty sub-group is skipped (`if subdf.empty: continue`),
otherwise one chart is emitted. -/
noncomputable def chartsOf01 (ws : List Row) (run : String)
    (spots : List String) : List SubChart :=
  spots.filterMap fun spot =>
    if (subgroup01 ws run spot).isEmpty then none
    else some (mkChart spot (subgroup01 ws run spot) "std_radius" 95)

/-- Sequential-mode rendering of one run in case 01: the emitted charts
together with the displayed run average
(`sum(run_spread_values)/len(run_spread_values)`), absent when no spread
value was collected; the collected values are exactly the spreads of the
emitted charts. -/
noncomputable def renderRun01 (ws : List Row) (run : String)
    (spots : List String) : List SubChart × Option (Option ℝ) :=
  (chartsOf01 ws run spots,
    if ((chartsOf01 ws run spots).map fun c => c.spread).isEmpty then none
    else some ((osum ((chartsOf01 ws run spots).map fun c => c.spread)).map
      fun s => s / ((chartsOf01 ws run spots).map fun c => c.spread).length))

/-- A fully parsed sample row used in concrete instances. -/
def rowGood : Row := ⟨some 1, some 0, "1", "1", "1", "1", "1"⟩

/-- A row whose XOffset equals the 999.0 sentinel. -/
def rowBad : Row := ⟨some 999, some 0, "1", "1", "1", "1", "1"⟩

/-- A row whose XOffset failed `pd.to_numeric` and was coerced to NaN. -/
def rowNaN : Row := ⟨none, some 0, "1", "1", "1", "1", "1"⟩

/-- The thirteen keys used to exercise the more-than-12-keys branch. -/
def keys13 : List String :=
  ["1", "2", "3", "4", "5", "6", "7", "8", "9", "10", "11", "12", "13"]

/-! ### Theorems -/
theorem radii_map_some (x y : List ℝ) :
    radii (x.map some) (y.map some) = (cleanRadii x y).map some := by
  induction x generalizing y with
  | nil => simp [radii, cleanRadii]
  | cons a as ih =>
    cases y with
    | nil => simp [radii, cleanRadii]
    | cons b bs =>
      simpa [radii, cleanRadii] using ih bs

theorem seqOption_map_some (l : List ℝ) : seqOption (l.map some) = some l := by
  induction l with
  | nil => simp [seqOption]
  | cons a as ih =>
    simp only [seqOption, List.all_cons, List.map_cons] at *
    simp_all [List.reduceOption_cons_of_some]

theorem cleanRadii_ne_nil (x y : List ℝ) (h : x ≠ []) (hl : x.length = y.length) :
    cleanRadii x y ≠ [] := by
  cases x with
  | nil => exact absurd rfl h
  | cons a as =>
    cases y with
    | nil => simp at hl
    | cons b bs => simp [cleanRadii]

theorem measure_spread_std_clean (x y : List ℝ) (p : ℚ) (h : x ≠ [])
    (hl : x.length = y.length) :
    measure_spread (x.map some) (y.map some) "std_radius" p =
      some (Real.sqrt ((((cleanRadii x y).map fun v =>
        (v - (cleanRadii x y).sum / (cleanRadii x y).length) ^ 2).sum) /
          (cleanRadii x y).length)) := by
  have hr := radii_map_some x y
  have hs := seqOption_map_some (cleanRadii x y)
  have hne := cleanRadii_ne_nil x y h hl
  simp [measure_spread, npStd, hr, hs, h, hne]

theorem measure_spread_rms_clean (x y : List ℝ) (p : ℚ) (h : x ≠ [])
    (hl : x.length = y.length) :
    measure_spread (x.map some) (y.map some) "rms_radius" p =
      some (Real.sqrt (((cleanRadii x y).map fun v => v ^ 2).sum /
        (cleanRadii x y).length)) := by
  have hr := radii_map_some x y
  have hs := seqOption_map_some (cleanRadii x y)
  have hne := cleanRadii_ne_nil x y h hl
  simp [measure_spread, npRms, hr, hs, h, hne]

theorem measure_spread_perc_clean (x y : List ℝ) (p : ℚ) (h : x ≠ [])
    (hl : x.length = y.length) :
    measure_spread (x.map some) (y.map some) "percentile_radius" p =
      some (percLin (List.insertionSort (· ≤ ·) (cleanRadii x y)) p) := by
  have hr := radii_map_some x y
  have hs := seqOption_map_some (cleanRadii x y)
  have hne := cleanRadii_ne_nil x y h hl
  simp [measure_spread, npPercentile, hr, hs, h, hne]

theorem sqrt_sq_add_zero (a : ℝ) (h : 0 ≤ a) : Real.sqrt (a ^ 2 + 0 ^ 2) = a := by
  rw [show a ^ 2 + 0 ^ 2 = a ^ 2 by ring, Real.sqrt_sq h]

/-- C1: on equal-length non-empty clean real inputs, `measure_spread` forms
the radii `sqrt (x_i^2 + y_i^2)` and returns, per method, the population
standard deviation of the radii, the root mean square of the radii, or the
interpolated percentile of the sorted radii; in particular `rms_radius` on
x=[3], y=[4] gives 5, `percentile_radius` at 100 on radii [1,2,3] gives 3,
and `std_radius` on x=[0.1,-0.1], y=[0,0] gives 0. -/
theorem measure_spread_methods_spec (x y : List ℝ) (p : ℚ) (h : x ≠ [])
    (hl : x.length = y.length) :
    (measure_spread (x.map some) (y.map some) "std_radius" p =
      some (Real.sqrt ((((cleanRadii x y).map fun v =>
        (v - (cleanRadii x y).sum / (cleanRadii x y).length) ^ 2).sum) /
          (cleanRadii x y).length)))
    ∧ (measure_spread (x.map some) (y.map some) "rms_radius" p =
      some (Real.sqrt (((cleanRadii x y).map fun v => v ^ 2).sum /
        (cleanRadii x y).length)))
    ∧ (measure_spread (x.map some) (y.map some) "percentile_radius" p =
      some (percLin (List.insertionSort (· ≤ ·) (cleanRadii x y)) p))
    ∧ measure_spread [some 3] [some 4] "rms_radius" 95 = some 5
    ∧ measure_spread [some 1, some 2, some 3] [some 0, some 0, some 0]
        "percentile_radius" 100 = some 3
    ∧ measure_spread [some 0.1, some (-0.1)] [some 0, some 0] "std_radius" 95
        = some 0 := by
  refine ⟨measure_spread_std_clean x y p h hl, measure_spread_rms_clean x y p h hl,
    measure_spread_perc_clean x y p h hl, ?_, ?_, ?_⟩
  · have h := measure_spread_rms_clean [3] [4] 95 (by simp) rfl
    have h25 : Real.sqrt ((3:ℝ) ^ 2 + 4 ^ 2) = 5 := by
      rw [show ((3:ℝ) ^ 2 + 4 ^ 2) = 5 ^ 2 by norm_num, Real.sqrt_sq (by norm_num)]
    simp only [List.map_cons, List.map_nil] at h
    rw [h]
    simp [cleanRadii, h25]
  · have h := measure_spread_perc_clean [1, 2, 3] [0, 0, 0] 100 (by simp) rfl
    have h1 : Real.sqrt ((1:ℝ) ^ 2 + 0 ^ 2) = 1 := sqrt_sq_add_zero 1 (by norm_num)
    have h2 : Real.sqrt ((2:ℝ) ^ 2 + 0 ^ 2) = 2 := sqrt_sq_add_zero 2 (by norm_num)
    have h3 : Real.sqrt ((3:ℝ) ^ 2 + 0 ^ 2) = 3 := sqrt_sq_add_zero 3 (by norm_num)
    have hcr : cleanRadii [1, 2, 3] [0, 0, 0] = [1, 2, 3] := by
      simp [cleanRadii, h1, h2, h3]
    have hsorted : List.insertionSort (fun a b => a ≤ b) [(1:ℝ), 2, 3] = [1, 2, 3] := by
      apply List.Sorted.insertionSort_eq
      norm_num [List.sorted_cons]
    simp only [List.map_cons, List.map_nil] at h
    rw [h, hcr]
    simp only [hsorted, percLin]
    norm_num
    rfl
  · have h := measure_spread_std_clean [0.1, -0.1] [0, 0] 95 (by simp) rfl
    have h1 : Real.sqrt ((0.1:ℝ) ^ 2 + 0 ^ 2) = 0.1 := sqrt_sq_add_zero 0.1 (by norm_num)
    have h2 : Real.sqrt ((-0.1:ℝ) ^ 2 + 0 ^ 2) = 0.1 := by
      rw [show ((-0.1:ℝ) ^ 2 + 0 ^ 2) = (0.1:ℝ) ^ 2 by ring, Real.sqrt_sq (by norm_num)]
    simp only [List.map_cons, List.map_nil] at h
    rw [h]
    simp [cleanRadii, h1, h2]

/-- C1 witness: the theorem instantiated at x=[3], y=[4], percentile 95,
with both hypotheses discharged. -/
theorem measure_spread_methods_spec_witness :
    ([(3:ℝ)] ≠ [] ∧ [(3:ℝ)].length = [(4:ℝ)].length) ∧
      measure_spread [some 3] [some 4] "rms_radius" 95 = some 5 :=
  ⟨⟨by simp, rfl⟩, (measure_spread_methods_spec [3] [4] 95 (by simp) rfl).2.2.2.1⟩

theorem zipWith_eq_map_zip {α β γ : Type} (f : α → β → γ) (x : List α) (y : List β) :
    List.zipWith f x y = (x.zip y).map fun p => f p.1 p.2 := by
  induction x generalizing y with
  | nil => simp
  | cons a as ih =>
    cases y with
    | nil => simp
    | cons b bs => simp [ih]

theorem radii_perm {x y X Y : List (Option ℝ)} (hperm : (x.zip y).Perm (X.zip Y)) :
    (radii x y).Perm (radii X Y) := by
  rw [radii, radii, zipWith_eq_map_zip, zipWith_eq_map_zip]
  exact hperm.map _

theorem all_isSome_perm {l₁ l₂ : List (Option ℝ)} (h : l₁.Perm l₂) :
    l₁.all (fun o => o.isSome) = l₂.all (fun o => o.isSome) := by
  rw [Bool.eq_iff_iff, List.all_eq_true, List.all_eq_true]
  exact ⟨fun H x hx => H x (h.mem_iff.mpr hx), fun H x hx => H x (h.mem_iff.mp hx)⟩

theorem reduceOption_perm {l₁ l₂ : List (Option ℝ)} (h : l₁.Perm l₂) :
    l₁.reduceOption.Perm l₂.reduceOption := h.filterMap id

theorem npStd_perm {l₁ l₂ : List (Option ℝ)} (h : l₁.Perm l₂) : npStd l₁ = npStd l₂ := by
  unfold npStd seqOption
  rw [all_isSome_perm h]
  by_cases hall : l₂.all (fun o => o.isSome) = true
  · have hp := reduceOption_perm h
    have hlen := hp.length_eq
    have hsum := hp.sum_eq
    have hnil : (l₁.reduceOption = []) ↔ (l₂.reduceOption = []) := by
      constructor <;> intro hh
      · have hl := hp.length_eq
        rw [hh] at hl
        exact List.length_eq_zero.mp (by simpa using hl.symm)
      · have hl := hp.length_eq
        rw [hh] at hl
        exact List.length_eq_zero.mp (by simpa using hl)
    have hdev : (List.map (fun v =>
        (v - l₂.reduceOption.sum / (l₂.reduceOption.length : ℝ)) ^ 2)
          l₁.reduceOption).sum =
        (List.map (fun v =>
        (v - l₂.reduceOption.sum / (l₂.reduceOption.length : ℝ)) ^ 2)
          l₂.reduceOption).sum :=
      (hp.map _).sum_eq
    simp [hall, hsum, hlen, hdev, hnil]
  · simp [hall]

theorem npRms_perm {l₁ l₂ : List (Option ℝ)} (h : l₁.Perm l₂) : npRms l₁ = npRms l₂ := by
  unfold npRms seqOption
  rw [all_isSome_perm h]
  by_cases hall : l₂.all (fun o => o.isSome) = true
  · have hp := reduceOption_perm h
    have hlen := hp.length_eq
    have hnil : (l₁.reduceOption = []) ↔ (l₂.reduceOption = []) := by
      constructor <;> intro hh
      · have hl := hp.length_eq
        rw [hh] at hl
        exact List.length_eq_zero.mp (by simpa using hl.symm)
      · have hl := hp.length_eq
        rw [hh] at hl
        exact List.length_eq_zero.mp (by simpa using hl)
    have hsq : ((l₁.reduceOption.map fun v => v ^ 2).sum) =
        ((l₂.reduceOption.map fun v => v ^ 2).sum) := (hp.map _).sum_eq
    simp [hall, hsq, hlen, hnil]
  · simp [hall]

theorem npPercentile_perm {l₁ l₂ : List (Option ℝ)} (h : l₁.Perm l₂) (q : ℚ) :
    npPercentile l₁ q = npPercentile l₂ q := by
  unfold npPercentile seqOption
  rw [all_isSome_perm h]
  by_cases hall : l₂.all (fun o => o.isSome) = true
  · have hp := reduceOption_perm h
    have hlen := hp.length_eq
    have hsort : List.insertionSort (· ≤ ·) l₁.reduceOption =
        List.insertionSort (· ≤ ·) l₂.reduceOption := by
      refine List.eq_of_perm_of_sorted ?_ (List.sorted_insertionSort _ _)
        (List.sorted_insertionSort _ _)
      exact ((List.perm_insertionSort _ _).trans hp).trans
        (List.perm_insertionSort _ _).symm
    have hnil : (l₁.reduceOption = []) ↔ (l₂.reduceOption = []) := by
      constructor <;> intro hh
      · have hl := hp.length_eq
        rw [hh] at hl
        exact List.length_eq_zero.mp (by simpa using hl.symm)
      · have hl := hp.length_eq
        rw [hh] at hl
        exact List.length_eq_zero.mp (by simpa using hl)
    simp [hall, hsort, hnil]
  · simp [hall]

/-- C10: `measure_spread` depends only on the multiset of (x, y) sample
pairs: jointly permuting the two input sequences leaves the result
unchanged, for every method selector and percentile. -/
theorem measure_spread_perm_invariant (x y X Y : List (Option ℝ)) (method : String)
    (p : ℚ) (hxy : x.length = y.length) (hXY : X.length = Y.length)
    (hperm : (x.zip y).Perm (X.zip Y)) :
    measure_spread x y method p = measure_spread X Y method p := by
  have hzx : (x.zip y).length = x.length := by
    rw [List.length_zip, hxy, min_self]
  have hzX : (X.zip Y).length = X.length := by
    rw [List.length_zip, hXY, min_self]
  have hlen : x.length = X.length := by
    rw [← hzx, ← hzX]
    exact hperm.length_eq
  have hr := radii_perm hperm
  unfold measure_spread
  rw [hlen]
  by_cases h0 : X.length = 0
  · simp [h0]
  · simp only [h0, if_false]
    rw [npStd_perm hr, npRms_perm hr, npPercentile_perm hr]

/-- C10 witness: the theorem applied to the concrete joint swap of
x=[1,2], y=[5,6] into x=[2,1], y=[6,5], hypotheses discharged. -/
theorem measure_spread_perm_invariant_witness :
    (([some (1:ℝ), some 2].length = [some (5:ℝ), some 6].length) ∧
      ([some (2:ℝ), some 1].length = [some (6:ℝ), some 5].length)) ∧
    measure_spread [some 1, some 2] [some 5, some 6] "std_radius" 95 =
      measure_spread [some 2, some 1] [some 6, some 5] "std_radius" 95 :=
  ⟨⟨rfl, rfl⟩,
    measure_spread_perm_invariant [some 1, some 2] [some 5, some 6]
      [some 2, some 1] [some 6, some 5] "std_radius" 95 rfl rfl
      (List.Perm.swap (some 2, some 6) (some 1, some 5) [])⟩

/-- C4: for every method selector and percentile, `measure_spread` on empty
input sequences returns the NaN sentinel (`none`) rather than a number or
an error; the guard fires on `len(x) == 0`, so any `y` is covered too. -/
theorem measure_spread_empty_nan (y : List (Option ℝ)) (method : String)
    (percentile : ℚ) :
    measure_spread [] y method percentile = none ∧
      measure_spread [] [] method percentile = none :=
  ⟨rfl, rfl⟩

/-! ### Dataframe rows and the per-case working datasets

A row of a view CSV after the numeric coercion step
(`pd.to_numeric(..., errors='coerce')`): offsets are `Option ℚ` with `none`
for an unparseable cell (coerced to NaN); the identifier columns are kept
as strings (`astype(str)`). -/
theorem mem_of_mem_applyIncl {get : Row → String} {f : Option (List String)}
    {rows : List Row} {r : Row} (h : r ∈ applyIncl get f rows) : r ∈ rows := by
  cases f with
  | none => exact h
  | some l => exact (List.mem_filter.mp h).1

theorem sentinelFree_of_mem_strip {rows : List Row} {r : Row}
    (h : r ∈ stripSentinel rows) : r.xoff ≠ some 999 ∧ r.yoff ≠ some 999 := by
  have := (List.mem_filter.mp h).2
  constructor <;> intro hc <;> simp [hc] at this

/-- C2: in every report case the 999.0 sentinel rows are dropped before the
inclusion filters, the grouping and the plotting, so no row of any working
dataset, no row of any sub-group and no plotted point carries the sentinel
on either axis. -/
theorem sentinel_removed_everywhere (rows : List Row)
    (spotF runF palF rowF casF : Option (List String)) (run key : String)
    (r : Row) (a b : ℚ) :
    (r ∈ working01 rows spotF runF → r.xoff ≠ some 999 ∧ r.yoff ≠ some 999)
    ∧ (r ∈ working02 rows spotF runF palF →
        r.xoff ≠ some 999 ∧ r.yoff ≠ some 999)
    ∧ (r ∈ working03 rows spotF runF rowF casF →
        r.xoff ≠ some 999 ∧ r.yoff ≠ some 999)
    ∧ (r ∈ subgroup01 (working01 rows spotF runF) run key →
        r.xoff ≠ some 999 ∧ r.yoff ≠ some 999)
    ∧ (r ∈ subgroup02 (working02 rows spotF runF palF) run key →
        r.xoff ≠ some 999 ∧ r.yoff ≠ some 999)
    ∧ ((a, b) ∈ plottedPoints (subgroup01 (working01 rows spotF runF) run key) →
        a ≠ 999 ∧ b ≠ 999) := by
  have h01 : ∀ s ∈ working01 rows spotF runF,
      s.xoff ≠ some 999 ∧ s.yoff ≠ some 999 := fun s hs =>
    sentinelFree_of_mem_strip (mem_of_mem_applyIncl (mem_of_mem_applyIncl hs))
  have h02 : ∀ s ∈ working02 rows spotF runF palF,
      s.xoff ≠ some 999 ∧ s.yoff ≠ some 999 := fun s hs =>
    sentinelFree_of_mem_strip
      (mem_of_mem_applyIncl (mem_of_mem_applyIncl (mem_of_mem_applyIncl hs)))
  have h03 : ∀ s ∈ working03 rows spotF runF rowF casF,
      s.xoff ≠ some 999 ∧ s.yoff ≠ some 999 := fun s hs =>
    sentinelFree_of_mem_strip (mem_of_mem_applyIncl
      (mem_of_mem_applyIncl (mem_of_mem_applyIncl (mem_of_mem_applyIncl hs))))
  refine ⟨h01 r, h02 r, h03 r, ?_, ?_, ?_⟩
  · exact fun hs => h01 r (List.mem_filter.mp hs).1
  · exact fun hs => h02 r (List.mem_filter.mp hs).1
  · intro hp
    obtain ⟨s, hs, hmatch⟩ := List.mem_filterMap.mp hp
    have hfree := h01 s (List.mem_filter.mp hs).1
    cases hx : s.xoff with
    | none => rw [hx] at hmatch; simp at hmatch
    | some av =>
      cases hy : s.yoff with
      | none => rw [hx, hy] at hmatch; simp at hmatch
      | some bv =>
        rw [hx, hy] at hmatch
        simp only [Option.some.injEq, Prod.mk.injEq] at hmatch
        obtain ⟨ha, hb⟩ := hmatch
        rw [hx, hy] at hfree
        constructor
        · intro hc
          exact hfree.1 (by rw [ha, hc])
        · intro hc
          exact hfree.2 (by rw [hb, hc])

/-! ### Offsets handed to the statistics -/
theorem spreadOf_nan_poisons (sub : List Row) (method : String) (p : ℚ)
    (h : ∃ r ∈ sub, r.xoff = none ∨ r.yoff = none) :
    spreadOf sub method p = none := by
  obtain ⟨r, hr, hnone⟩ := h
  have hmem : none ∈ radii (xsOf sub) (ysOf sub) := by
    rw [radii, xsOf, ysOf, zipWith_eq_map_zip, List.zip_map', List.map_map]
    refine List.mem_map.mpr ⟨r, hr, ?_⟩
    cases hnone with
    | inl hx => simp [hx]
    | inr hy => cases hx : r.xoff <;> simp [hx, hy]
  have hseq : seqOption (radii (xsOf sub) (ysOf sub)) = none := by
    rw [seqOption, if_neg]
    rw [List.all_eq_false.mpr ⟨none, hmem, by simp⟩]
    simp
  rw [spreadOf, measure_spread]
  split_ifs <;> simp [npStd, npRms, npPercentile, hseq]

/-- C2 witness: the theorem applied to a concrete dataset of one good and
one sentinel row, the membership hypothesis discharged by evaluation. -/
theorem sentinel_removed_everywhere_witness :
    rowGood ∈ working01 [rowGood, rowBad] none none ∧
      rowGood.xoff ≠ some 999 ∧ rowGood.yoff ≠ some 999 :=
  ⟨by decide,
    (sentinel_removed_everywhere [rowGood, rowBad] none none none none none
      "1" "1" rowGood 0 0).1 (by decide)⟩

/-- C7 counterexample: a sub-group holding one clean row and one row with
an unparseable XOffset.  The code hands the whole sub-group to
`measure_spread`, whose result is NaN (`none`); had the unparseable row
been excluded as claimed, the result would be the std of the remaining
radii, a real number.  The two disagree. -/
theorem nan_rows_reach_spread_counterexample :
    spreadOf [rowGood, rowNaN] "std_radius" 95 = none ∧
    spreadOf (dropUnparseable [rowGood, rowNaN]) "std_radius" 95 ≠ none ∧
    spreadOf [rowGood, rowNaN] "std_radius" 95 ≠
      spreadOf (dropUnparseable [rowGood, rowNaN]) "std_radius" 95 := by
  have hdrop : dropUnparseable [rowGood, rowNaN] = [rowGood] := by decide
  have hnone : spreadOf [rowGood, rowNaN] "std_radius" 95 = none :=
    spreadOf_nan_poisons _ _ _ ⟨rowNaN, by simp, Or.inl rfl⟩
  have hxs : xsOf [rowGood] = List.map some [(((1:ℚ)) : ℝ)] := by
    simp [xsOf, rowGood]
  have hys : ysOf [rowGood] = List.map some [(((0:ℚ)) : ℝ)] := by
    simp [ysOf, rowGood]
  have hsome : spreadOf [rowGood] "std_radius" 95 ≠ none := by
    rw [spreadOf, hxs, hys,
      measure_spread_std_clean [(((1:ℚ)) : ℝ)] [(((0:ℚ)) : ℝ)] 95 (by simp) rfl]
    simp
  refine ⟨hnone, ?_, ?_⟩
  · rw [hdrop]; exact hsome
  · rw [hdrop, hnone]; exact fun hc => hsome hc.symm

/-- C7 (amended): an unparseable offset is coerced to the NaN marker and
the row yields no plotted marker, and report generation does not abort
(every operation is total); but the row is NOT excluded from the spread
computation: a sub-group containing such a row has NaN as its spread
metric, for every method and percentile. -/
theorem unparseable_rows_effect (sub : List Row) (a b : ℚ) (method : String)
    (p : ℚ) :
    ((a, b) ∈ plottedPoints sub → ∃ r ∈ sub, r.xoff = some a ∧ r.yoff = some b)
    ∧ ((∃ r ∈ sub, r.xoff = none ∨ r.yoff = none) →
        spreadOf sub method p = none) := by
  constructor
  · intro hp
    obtain ⟨s, hs, hmatch⟩ := List.mem_filterMap.mp hp
    refine ⟨s, hs, ?_⟩
    cases hx : s.xoff with
    | none => rw [hx] at hmatch; simp at hmatch
    | some av =>
      cases hy : s.yoff with
      | none => rw [hx, hy] at hmatch; simp at hmatch
      | some bv =>
        rw [hx, hy] at hmatch
        simp only [Option.some.injEq, Prod.mk.injEq] at hmatch
        rw [hmatch.1, hmatch.2]
        exact ⟨rfl, rfl⟩
  · exact spreadOf_nan_poisons sub method p

/-- C7 witness: the amended theorem applied to the concrete two-row
sub-group, both hypotheses discharged there. -/
theorem unparseable_rows_effect_witness :
    ((1, 0) ∈ plottedPoints [rowGood, rowNaN] ∧
      (∃ r ∈ [rowGood, rowNaN], r.xoff = none ∨ r.yoff = none)) ∧
    (∃ r ∈ [rowGood, rowNaN], r.xoff = some 1 ∧ r.yoff = some 0) ∧
    spreadOf [rowGood, rowNaN] "std_radius" 95 = none :=
  ⟨⟨by decide, ⟨rowNaN, by simp, Or.inl rfl⟩⟩,
    (unparseable_rows_effect [rowGood, rowNaN] 1 0 "std_radius" 95).1
      (by decide),
    (unparseable_rows_effect [rowGood, rowNaN] 1 0 "std_radius" 95).2
      ⟨rowNaN, by simp, Or.inl rfl⟩⟩

/-! ### Colour assignment -/

/-- Abstract colour: either a fixed palette hex string, or a vivid HSV
colour identified by its hue (the code fixes saturation and value at 0.95
and converts with `mcolors.hsv_to_rgb`; distinct hues in [0,1) give
distinct colours). -/
theorem lookupColor_cons (k : String) (v : PColor) (t : List (String × PColor))
    (key : String) :
    lookupColor ((k, v) :: t) key = if k == key then v else lookupColor t key := by
  by_cases h : (k == key) = true
  · simp [lookupColor, List.find?, h]
  · simp only [Bool.not_eq_true] at h
    simp [lookupColor, List.find?, h]

theorem lookupColor_zip_get (keys : List String) (vals : List PColor) (i : ℕ)
    (hnd : keys.Nodup) (hi : i < keys.length) (hlen : vals.length = keys.length) :
    lookupColor (keys.zip vals) (keys.get ⟨i, hi⟩) =
      vals.getD i (PColor.hex "#000000") := by
  induction keys generalizing vals i with
  | nil => simp at hi
  | cons k ks ih =>
    cases vals with
    | nil => simp at hlen
    | cons v vs =>
      cases i with
      | zero =>
        simp [List.zip_cons_cons, lookupColor_cons]
      | succ n =>
        have hn : n < ks.length := by simpa using hi
        have hkey : k ≠ ks[n] := fun hc =>
          (List.nodup_cons.mp hnd).1 (hc ▸ List.getElem_mem hn)
        have hih := ih vs n (List.nodup_cons.mp hnd).2 hn (by simpa using hlen)
        simpa [lookupColor_cons, hkey] using hih

theorem buildColorTable_le (palette keys : List String)
    (sh : List ℚ → List ℚ) (hle : keys.length ≤ palette.length) :
    buildColorTable palette keys sh =
      keys.zip ((palette.take keys.length).map PColor.hex) := by
  rw [buildColorTable, if_pos hle]

theorem buildColorTable_lookup (palette keys : List String)
    (sh : List ℚ → List ℚ) (i : ℕ) (hnd : keys.Nodup)
    (hle : keys.length ≤ palette.length) (hi : i < keys.length) :
    lookupColor (buildColorTable palette keys sh) (keys.get ⟨i, hi⟩) =
      PColor.hex (palette.getD i "#000000") := by
  have hvlen : ((palette.take keys.length).map PColor.hex).length = keys.length := by
    simp [List.length_take]
    omega
  rw [buildColorTable_le palette keys sh hle,
    lookupColor_zip_get keys _ i hnd hi hvlen]
  have hil : i < ((palette.take keys.length).map PColor.hex).length := by omega
  rw [List.getD_eq_getElem _ _ hil]
  simp only [List.getElem_map, List.getElem_take]
  rw [List.getD_eq_getElem _ _ (lt_of_lt_of_le hi hle)]

theorem buildColorTable_snd_nodup (palette keys : List String)
    (sh : List ℚ → List ℚ) (hle : keys.length ≤ palette.length)
    (hpnod : palette.Nodup) :
    ((buildColorTable palette keys sh).map Prod.snd).Nodup := by
  rw [buildColorTable_le palette keys sh hle, List.map_snd_zip]
  · exact ((List.take_sublist _ _).nodup hpnod).map
      (fun a b hab => by injection hab)
  · simp [List.length_take]

/-- C3 counterexample: with a single key, case 03's table assigns blue
(`#0000FF`), not the yellow (`#FFD700`) the claim's fixed order requires;
case 01's table does assign yellow. -/
theorem case03_first_color_not_yellow :
    lookupColor (buildColorTable palette03 ["7"] id) "7" = PColor.hex "#0000FF"
    ∧ PColor.hex "#0000FF" ≠ PColor.hex "#FFD700"
    ∧ lookupColor (buildColorTable palette01 ["7"] id) "7" =
        PColor.hex "#FFD700" := by decide

/-- C3 (amended): with at most 12 unique keys, each report case maps the
keys, in sorted order, one-to-one onto the leading colours of its fixed
12-colour palette — cases 01/02 in the order yellow, red, cyan, blue, lime,
magenta, orange, green, pink, purple, brown, tomato, and case 03 in the
same colours with blue first and yellow fourth; each key gets exactly one
colour, the assigned colours are pairwise distinct, and the table does not
depend on the random draw, so every chart and the legend of one report see
the same colour for the same key. -/
theorem palette_assignment_spec (keys : List String) (sh sh2 : List ℚ → List ℚ)
    (hnd : keys.Nodup) (hle : keys.length ≤ 12) :
    (buildColorTable palette01 keys sh =
        keys.zip ((palette01.take keys.length).map PColor.hex))
    ∧ (buildColorTable palette03 keys sh =
        keys.zip ((palette03.take keys.length).map PColor.hex))
    ∧ (∀ i (hi : i < keys.length),
        lookupColor (buildColorTable palette01 keys sh) (keys.get ⟨i, hi⟩) =
          PColor.hex (palette01.getD i "#000000"))
    ∧ (∀ i (hi : i < keys.length),
        lookupColor (buildColorTable palette03 keys sh) (keys.get ⟨i, hi⟩) =
          PColor.hex (palette03.getD i "#000000"))
    ∧ ((buildColorTable palette01 keys sh).map Prod.snd).Nodup
    ∧ ((buildColorTable palette03 keys sh).map Prod.snd).Nodup
    ∧ buildColorTable palette01 keys sh = buildColorTable palette01 keys sh2
    ∧ buildColorTable palette03 keys sh = buildColorTable palette03 keys sh2 := by
  have hle01 : keys.length ≤ palette01.length := by
    simpa [palette01] using hle
  have hle03 : keys.length ≤ palette03.length := by
    simpa [palette03] using hle
  refine ⟨buildColorTable_le _ _ _ hle01, buildColorTable_le _ _ _ hle03,
    fun i hi => buildColorTable_lookup _ _ _ i hnd hle01 hi,
    fun i hi => buildColorTable_lookup _ _ _ i hnd hle03 hi,
    buildColorTable_snd_nodup _ _ _ hle01 (by decide),
    buildColorTable_snd_nodup _ _ _ hle03 (by decide), ?_, ?_⟩
  · rw [buildColorTable_le _ _ _ hle01, buildColorTable_le _ _ _ hle01]
  · rw [buildColorTable_le _ _ _ hle03, buildColorTable_le _ _ _ hle03]

/-- C3 witness: the amended theorem applied to the concrete sorted key list
["4", "7"], both hypotheses discharged by evaluation. -/
theorem palette_assignment_spec_witness :
    (["4", "7"].Nodup ∧ ["4", "7"].length ≤ 12) ∧
      buildColorTable palette01 ["4", "7"] id =
        ["4", "7"].zip ((palette01.take (["4", "7"] : List String).length).map
          PColor.hex) :=
  ⟨⟨by decide, by decide⟩,
    (palette_assignment_spec ["4", "7"] id id (by decide) (by decide)).1⟩

/-- C9 counterexample: with 13 keys the colour table is built from an
unseeded random shuffle of the linspace hues; the grid-mode call and the
sequential-mode call draw independently, and two legitimate draws (identity
and reversal) give key "1" the hues 0 and 12/13 — different colours, so the
two outputs need not agree. -/
theorem color_table_random_branch_counterexample :
    lookupColor (buildColorTable palette01 keys13 id) "1" = PColor.hsv 0
    ∧ lookupColor (buildColorTable palette01 keys13 List.reverse) "1" =
        PColor.hsv (12 / 13)
    ∧ buildColorTable palette01 keys13 id ≠
        buildColorTable palette01 keys13 List.reverse := by
  have h1 : lookupColor (buildColorTable palette01 keys13 id) "1" =
      PColor.hsv 0 := by
    simp [buildColorTable, keys13, palette01, linspaceHues, List.range_succ,
      lookupColor_cons]
  have h2 : lookupColor (buildColorTable palette01 keys13 List.reverse) "1" =
      PColor.hsv (12 / 13) := by
    simp [buildColorTable, keys13, palette01, linspaceHues, List.range_succ,
      lookupColor_cons]
  refine ⟨h1, h2, fun hc => ?_⟩
  rw [hc, h2] at h1
  rw [PColor.hsv.injEq] at h1
  norm_num at h1

/-- C9 (amended): when the filtered dataset has at most 12 unique category
keys, the colour table is independent of the random draw, so the grid-mode
report and the sequential-mode report built from the same dataset assign
identical colours to identical keys; with more than 12 keys the table
depends on the unseeded shuffle and the two calls can disagree. -/
theorem grid_sequential_same_colors (keys : List String)
    (sh1 sh2 : List ℚ → List ℚ) (hle : keys.length ≤ 12) (k : String) :
    buildColorTable palette01 keys sh1 = buildColorTable palette01 keys sh2
    ∧ lookupColor (buildColorTable palette01 keys sh1) k =
        lookupColor (buildColorTable palette01 keys sh2) k
    ∧ buildColorTable palette03 keys sh1 = buildColorTable palette03 keys sh2 := by
  have hle01 : keys.length ≤ palette01.length := by
    simpa [palette01] using hle
  have hle03 : keys.length ≤ palette03.length := by
    simpa [palette03] using hle
  have h01 : buildColorTable palette01 keys sh1 =
      buildColorTable palette01 keys sh2 := by
    rw [buildColorTable_le _ _ _ hle01, buildColorTable_le _ _ _ hle01]
  exact ⟨h01, by rw [h01],
    by rw [buildColorTable_le _ _ _ hle03, buildColorTable_le _ _ _ hle03]⟩

/-- C9 witness: the amended theorem applied to the keys ["4", "7"] and the
two draws identity and reversal, the hypothesis discharged by evaluation. -/
theorem grid_sequential_same_colors_witness :
    (["4", "7"] : List String).length ≤ 12 ∧
      buildColorTable palette01 ["4", "7"] id =
        buildColorTable palette01 ["4", "7"] List.reverse :=
  ⟨by decide,
    (grid_sequential_same_colors ["4", "7"] id List.reverse (by decide) "4").1⟩

/-! ### Sorting of run identifiers and category keys -/

/-- Decimal digit-string value; `none` models Python `int()` rejecting the
string (empty or holding a non-digit). -/
theorem category_key_sort_counterexample :
    sortSpots ["002", "010", "A1"] = none ∧
      sortSpots ["002", "010", "A1"] ≠ some ["002", "010", "A1"] := by decide

/-- C6 (amended): run identifiers are sorted by the numeric-first,
string-fallback rule — the result is a permutation of the input, sorted
under that rule, and ["002","010","A1"] sorts to itself; category keys
(spot, row, pallette numbers) are instead sorted strictly by integer
value: one non-numeric key aborts the sort with ValueError, and on
all-numeric keys the result is the value-sorted permutation. -/
theorem sort_rule_spec (l : List String) :
    sortRuns ["002", "010", "A1"] = ["002", "010", "A1"]
    ∧ (sortRuns l).Perm l
    ∧ (sortRuns l).Sorted runLe
    ∧ ((∃ s ∈ l, parseInt s = none) → sortSpots l = none)
    ∧ ((∀ s ∈ l, (parseInt s).isSome) →
        sortSpots l = some (List.insertionSort spotLe l)
        ∧ (List.insertionSort spotLe l).Perm l
        ∧ (List.insertionSort spotLe l).Sorted spotLe)
    ∧ sortSpots ["010", "002"] = some ["002", "010"] := by
  refine ⟨by decide, List.perm_insertionSort _ _, List.sorted_insertionSort _ _,
    ?_, ?_, by decide⟩
  · rintro ⟨s, hs, hnone⟩
    rw [sortSpots, if_neg]
    rw [List.all_eq_false.mpr ⟨s, hs, by simp [hnone]⟩]
    simp
  · intro hall
    exact ⟨by rw [sortSpots, if_pos (List.all_eq_true.mpr hall)],
      List.perm_insertionSort _ _, List.sorted_insertionSort _ _⟩

/-- C6 witness: the amended theorem applied to the all-numeric key list
["010", "002"], the hypothesis of the all-numeric clause discharged by
evaluation. -/
theorem sort_rule_spec_witness :
    (∀ s ∈ (["010", "002"] : List String), (parseInt s).isSome) ∧
      sortSpots ["010", "002"] = some (List.insertionSort spotLe ["010", "002"]) :=
  ⟨by decide, ((sort_rule_spec ["010", "002"]).2.2.2.2.1 (by decide)).1⟩

/-! ### Report renderer (sequential mode) -/

/-- Float multiplication, for `circle_radius = 2 * spread_value`: NaN
absorbing. -/
theorem fmul_two_eq_map (o : Option ℝ) :
    fmul (some 2) o = o.map fun v => 2 * v := by
  cases o <;> rfl

/-- C5: for every non-empty sub-group the sequential renderer draws a
solid density circle centred at the origin whose radius is exactly 2 × the
value `measure_spread` returned — the doubling happens in the renderer,
the chart's spread value itself being the undoubled metric — and a dotted
tolerance circle centred at the origin with the fixed radius 0.2, the same
for every non-empty sub-group whatever its data, method or percentile. -/
theorem overlay_circles_spec (key key2 : String) (sub sub2 : List Row)
    (method method2 : String) (p p2 : ℚ) (h : sub ≠ []) (h2 : sub2 ≠ []) :
    (mkChart key sub method p).spread = spreadOf sub method p
    ∧ (mkChart key sub method p).density =
        some ⟨(0, 0), (spreadOf sub method p).map fun v => 2 * v, true⟩
    ∧ (mkChart key sub method p).tolerance = some ⟨(0, 0), some 0.2, false⟩
    ∧ (mkChart key sub method p).tolerance =
        (mkChart key2 sub2 method2 p2).tolerance := by
  have hE : sub.isEmpty = false := by
    simp [List.isEmpty_iff, h]
  have hE2 : sub2.isEmpty = false := by
    simp [List.isEmpty_iff, h2]
  refine ⟨rfl, ?_, ?_, ?_⟩
  · simp [mkChart, hE, fmul_two_eq_map]
  · simp [mkChart, hE]
  · simp [mkChart, hE, hE2]

/-- C5 witness: the theorem applied to the one-row sub-group `[rowGood]`,
both non-emptiness hypotheses discharged by evaluation. -/
theorem overlay_circles_spec_witness :
    (([rowGood] : List Row) ≠ []) ∧
      (mkChart "1" [rowGood] "std_radius" 95).tolerance =
        some ⟨(0, 0), some 0.2, false⟩ :=
  ⟨by decide,
    (overlay_circles_spec "1" "2" [rowGood] [rowGood] "std_radius"
      "rms_radius" 95 50 (by decide) (by decide)).2.2.1⟩

/-- C8 counterexample: a run whose spot "2" sub-group is empty.  The claim
requires a "No data" rendering for that sub-group; the code instead skips
it (`if subdf.empty: continue`), so the emitted chart list holds exactly
one chart, keyed "1" — nothing at all, in particular no "No data" text, is
emitted for spot "2". -/
theorem no_data_never_rendered_counterexample :
    subgroup01 [rowGood] "1" "2" = []
    ∧ (renderRun01 [rowGood] "1" ["1", "2"]).1.map SubChart.key = ["1"] := by
  constructor
  · decide
  · simp [renderRun01, chartsOf01, subgroup01, mkChart, rowGood]

/-- C8 (amended): an empty sub-group is skipped outright in sequential
mode: no chart and no "No data" text is emitted for it (the "No data"
branch is unreachable — no emitted chart ever carries that label), and it
contributes nothing to the run's displayed average spread: rendering with
the empty sub-group deleted from the category list gives the identical
output, charts and average alike. -/
theorem empty_subgroup_skipped (ws : List Row) (run spot : String)
    (s1 s2 spots : List String) (h : subgroup01 ws run spot = []) :
    renderRun01 ws run (s1 ++ spot :: s2) = renderRun01 ws run (s1 ++ s2)
    ∧ ∀ c ∈ (renderRun01 ws run spots).1, c.text ≠ MetricText.noData := by
  have hE : (subgroup01 ws run spot).isEmpty = true := by
    rw [h]
    rfl
  have hcharts : chartsOf01 ws run (s1 ++ spot :: s2) =
      chartsOf01 ws run (s1 ++ s2) := by
    unfold chartsOf01
    rw [List.filterMap_append, List.filterMap_append, List.filterMap_cons]
    simp [hE]
  constructor
  · rw [renderRun01, renderRun01, hcharts]
  · intro c hc hcon
    obtain ⟨sp, hsp, hF⟩ := List.mem_filterMap.mp hc
    by_cases hE2 : (subgroup01 ws run sp).isEmpty
    · simp [hE2] at hF
    · rw [if_neg (by simp [hE2])] at hF
      have htext : c.text = MetricText.stdRadius
          (spreadOf (subgroup01 ws run sp) "std_radius" 95) := by
        rw [← Option.some_inj.mp hF]
        simp [mkChart, hE2]
      rw [hcon] at htext
      exact MetricText.noConfusion htext

/-- C8 witness: the amended theorem applied to the concrete run with spot
"2" empty, the emptiness hypothesis discharged by evaluation. -/
theorem empty_subgroup_skipped_witness :
    subgroup01 [rowGood] "1" "2" = [] ∧
      renderRun01 [rowGood] "1" (["1"] ++ "2" :: []) =
        renderRun01 [rowGood] "1" (["1"] ++ []) :=
  ⟨by decide,
    (empty_subgroup_skipped [rowGood] "1" "2" ["1"] [] ["1"] (by decide)).1⟩

end VAS

